import Mathlib

/-!
Verification of the deterministic path-planning core of `bluesky-gym`
(`src/bluesky_gym/envs/common/deterministic_path_planning.py`).

The search driver `det_path_planning` is translated from the source file.
The helper module `tools_deterministic_path_planning.py` (classes `Pos`,
`Obs`, `Route` and the functions `parse`, `intersectionpt`, `LatLon2XY`,
`XY2LatLon`) is not part of the repository snapshot; those definitions are
modelled from the specification and are marked as such in their doc
comments.

Modelling conventions:
- planar coordinates are rationals (the Python floats are idealised to
  exact arithmetic);
- Euclidean lengths live in `ℝ` (via `Complex.abs`), so the cost fields of
  a route are real numbers;
- the unbounded `while` loop of the source is embedded as a step function
  `loopStep` iterated by a fuel-indexed runner `runLoop`; fuel exhaustion
  is a modelling artifact reported by a dedicated outcome constructor.
-/

namespace DetPath

/-- Planar position, x/y in nautical miles.  Modelled from the spec:
class `Pos` of the missing tools module ("a 2-D point (x, y) in nautical
miles ... supports vector subtraction and magnitude"). -/
structure Pos where
  x : ℚ
  y : ℚ
deriving DecidableEq, Repr

/-- Vector subtraction on positions (the `-` used by `checkdist = ... - refpt`). -/
def Pos.sub (a b : Pos) : Pos := ⟨a.x - b.x, a.y - b.y⟩

/-- The zero position, used as a default for out-of-range list accesses. -/
def posZero : Pos := ⟨0, 0⟩

/-- Embedding of a position into the complex plane (to borrow the
Euclidean norm and its triangle inequality). -/
noncomputable def Pos.toC (p : Pos) : ℂ := ⟨(p.x : ℝ), (p.y : ℝ)⟩

/-- Euclidean magnitude of a position vector.  Modelled from the spec:
`length()` of class `Pos`. -/
noncomputable def Pos.len (p : Pos) : ℝ := Complex.abs p.toC

lemma Pos.toC_sub (a b : Pos) : (a.sub b).toC = a.toC - b.toC := by
  simp only [Pos.toC, Pos.sub]
  apply Complex.ext <;> push_cast <;> simp

lemma Pos.len_nonneg (p : Pos) : 0 ≤ p.len := Complex.abs.nonneg _

lemma Pos.len_zero : posZero.len = 0 := by
  simp [Pos.len, posZero, Pos.toC, Complex.abs_apply, Complex.normSq_mk]

lemma Pos.len_sub_self (a : Pos) : (a.sub a).len = 0 := by
  simp [Pos.len, Pos.toC_sub]

/-- Triangle inequality for segment lengths. -/
lemma Pos.len_triangle (a b c : Pos) :
    (c.sub a).len ≤ (b.sub a).len + (c.sub b).len := by
  simp only [Pos.len, Pos.toC_sub]
  have h := Complex.abs.sub_le c.toC b.toC a.toC
  calc Complex.abs (c.toC - a.toC) ≤ Complex.abs (c.toC - b.toC) + Complex.abs (b.toC - a.toC) := h
    _ = Complex.abs (b.toC - a.toC) + Complex.abs (c.toC - b.toC) := add_comm _ _

/-- Total length of a polyline through the given waypoints.  Modelled from
the spec: `recomputeCost` "sums per-segment ... planar distance". -/
noncomputable def pathDist : List Pos → ℝ
  | [] => 0
  | [_] => 0
  | a :: b :: t => (b.sub a).len + pathDist (b :: t)

lemma pathDist_nonneg : ∀ l : List Pos, 0 ≤ pathDist l
  | [] => le_refl 0
  | [_] => le_refl 0
  | a :: b :: t => by
      have h1 := Pos.len_nonneg (b.sub a)
      have h2 := pathDist_nonneg (b :: t)
      simpa [pathDist] using add_nonneg h1 h2

lemma pathDist_le_cons (y : Pos) (l : List Pos) : pathDist l ≤ pathDist (y :: l) := by
  cases l with
  | nil => simp [pathDist]
  | cons a t =>
      have := Pos.len_nonneg (a.sub y)
      simp only [pathDist]
      linarith [pathDist_nonneg (a :: t)]

/-- Inserting one stop between the head and the remainder can only make the
polyline longer (triangle inequality, one step). -/
lemma pathDist_cons_le_through (a y : Pos) (l : List Pos) :
    pathDist (a :: l) ≤ (y.sub a).len + pathDist (y :: l) := by
  cases l with
  | nil =>
      simp only [pathDist]
      linarith [Pos.len_nonneg (y.sub a)]
  | cons x t =>
      simp only [pathDist]
      have h := Pos.len_triangle a y x
      linarith [pathDist_nonneg (x :: t)]

/-- A polyline through a supersequence of waypoints, starting at the same
point, is at least as long. -/
lemma pathDist_cons_mono {xs ys : List Pos} (h : xs.Sublist ys) :
    ∀ a : Pos, pathDist (a :: xs) ≤ pathDist (a :: ys) := by
  induction h with
  | slnil => intro a; exact le_refl _
  | cons y h ih =>
      intro a
      calc pathDist (a :: _) ≤ (y.sub a).len + pathDist (y :: _) :=
            pathDist_cons_le_through a y _
        _ ≤ (y.sub a).len + pathDist (y :: _) := by
            have := ih y
            linarith
        _ = pathDist (a :: y :: _) := by simp [pathDist]
  | cons₂ y h ih =>
      intro a
      have := ih y
      simp only [pathDist]
      linarith

/-- Polyline length is monotone under taking supersequences of waypoints. -/
lemma pathDist_sublist_mono {xs ys : List Pos} (h : xs.Sublist ys) :
    pathDist xs ≤ pathDist ys := by
  induction h with
  | slnil => exact le_refl _
  | cons y h ih => exact le_trans ih (pathDist_le_cons y _)
  | cons₂ y h ih => exact pathDist_cons_mono h y

/-! ### Segment geometry (decidable, over `ℚ`) -/

/-- 2-D cross product of `b - a` and `c - a` (orientation test). -/
def cross (a b c : Pos) : ℚ :=
  (b.x - a.x) * (c.y - a.y) - (b.y - a.y) * (c.x - a.x)

/-- Whether `r` lies within the axis-aligned bounding box of `p` and `q`
(used to settle the collinear case of the segment intersection test). -/
def inBox (p q r : Pos) : Bool :=
  decide (min p.x q.x ≤ r.x) && decide (r.x ≤ max p.x q.x) &&
  decide (min p.y q.y ≤ r.y) && decide (r.y ≤ max p.y q.y)

/-- Segment–segment intersection test.  Modelled from the spec: "standard
2-D segment intersection via parametric line equations; shared-endpoint or
collinear-overlap cases are treated as intersecting". -/
def segInt (p1 p2 q1 q2 : Pos) : Bool :=
  let d1 := cross q1 q2 p1
  let d2 := cross q1 q2 p2
  let d3 := cross p1 p2 q1
  let d4 := cross p1 p2 q2
  (decide (d1 * d2 < 0) && decide (d3 * d4 < 0)) ||
  (decide (d1 = 0) && inBox q1 q2 p1) ||
  (decide (d2 = 0) && inBox q1 q2 p2) ||
  (decide (d3 = 0) && inBox p1 p2 q1) ||
  (decide (d4 = 0) && inBox p1 p2 q2)

/-- Intersection point of the lines through segment `(a, b)` and segment
`(p, q)`.  Modelled from the spec: `intersectionPoint` "via parametric line
equations" (the missing tools module's `intersectionpt`); for parallel
lines the rational division by zero yields the degenerate answer `a`. -/
def intersectionpt (a b p q : Pos) : Pos :=
  let num := (q.x - p.x) * (p.y - a.y) - (q.y - p.y) * (p.x - a.x)
  let den := (q.x - p.x) * (b.y - a.y) - (q.y - p.y) * (b.x - a.x)
  let t := num / den
  ⟨a.x + t * (b.x - a.x), a.y + t * (b.y - a.y)⟩

/-! ### Obstacle model -/

/-- A polygonal obstacle.  Modelled from the spec: class `Obs`, "an
ordered, closed sequence of vertices (Positions) forming a simple polygon,
stored in clockwise vertex order"; the input polygons are "assumed already
closed", so `vert` stores the closing vertex (first = last) and edge `i`
joins `vert[i]` to `vert[i+1]` for `i < vert.length - 1`. -/
structure Obs where
  vert : List Pos
deriving DecidableEq, Repr

/-- The empty obstacle, default for out-of-range dictionary accesses. -/
def obsEmpty : Obs := ⟨[]⟩

/-- One ray-casting step: does edge `(a, b)` cross the horizontal ray from
`p` to the right?  Modelled from the spec: "standard point-in-polygon
test, e.g. ray casting". -/
def edgeCrossesRay (p a b : Pos) : Bool :=
  (decide (p.y < a.y) != decide (p.y < b.y)) &&
  decide (p.x < a.x + (p.y - a.y) * (b.x - a.x) / (b.y - a.y))

/-- Edges of a closed vertex list, as consecutive pairs. -/
def edgePairs : List Pos → List (Pos × Pos)
  | [] => []
  | [_] => []
  | a :: b :: t => (a, b) :: edgePairs (b :: t)

/-- Point-in-polygon by crossing count.  Modelled from the spec:
`pointsInsideThisObstacle` uses a "standard point-in-polygon test". -/
def Obs.inside (o : Obs) (p : Pos) : Bool :=
  ((edgePairs o.vert).filter (fun e => edgeCrossesRay p e.1 e.2)).length % 2 = 1

/-- Is `p` inside some obstacle of the collection? -/
def insideAny (obsDic : List Obs) (p : Pos) : Bool :=
  obsDic.any (fun o => o.inside p)

/-- All intersections of a waypoint polyline with this obstacle, as pairs
(route segment index, obstacle edge index), route-segment-major.
Modelled from the spec: `intersectRoute` tests "every consecutive pair of
route waypoints and every obstacle edge" and "returns all intersecting
pairs". -/
def Obs.intersectWypts (o : Obs) (wypts : List Pos) : List (ℕ × ℕ) :=
  (List.range (wypts.length - 1)).flatMap (fun rs =>
    (List.range (o.vert.length - 1)).filterMap (fun e =>
      if segInt (wypts.getD rs posZero) (wypts.getD (rs + 1) posZero)
          (o.vert.getD e posZero) (o.vert.getD (e + 1) posZero)
      then some (rs, e) else none))

/-! ### Waypoint cleanup helpers -/

/-- Drop every element equal to the previously kept one (with `prev` the
last kept element so far). -/
def dedupFrom (prev : Pos) : List Pos → List Pos
  | [] => []
  | b :: t => if b = prev then dedupFrom prev t else b :: dedupFrom b t

/-- Collapse consecutive duplicate waypoints. -/
def dedupConsec : List Pos → List Pos
  | [] => []
  | a :: t => a :: dedupFrom a t

lemma pathDist_dedupFrom (prev : Pos) (l : List Pos) :
    pathDist (prev :: dedupFrom prev l) = pathDist (prev :: l) := by
  induction l generalizing prev with
  | nil => rfl
  | cons b t ih =>
      by_cases hb : b = prev
      · subst hb
        have h1 : dedupFrom b (b :: t) = dedupFrom b t := by simp [dedupFrom]
        rw [h1, ih b]
        simp [pathDist, Pos.len_sub_self]
      · simp only [dedupFrom, if_neg hb, pathDist]
        rw [ih b]

/-- Collapsing consecutive duplicates does not change the polyline length. -/
lemma pathDist_dedupConsec (l : List Pos) : pathDist (dedupConsec l) = pathDist l := by
  cases l with
  | nil => rfl
  | cons a t => simpa [dedupConsec] using pathDist_dedupFrom a t

/-- Filter a waypoint list by a predicate on (index, waypoint), indices
starting at `i`. -/
def filterIdxAux (P : ℕ → Pos → Bool) : ℕ → List Pos → List Pos
  | _, [] => []
  | i, w :: t => if P i w then w :: filterIdxAux P (i + 1) t else filterIdxAux P (i + 1) t

lemma filterIdxAux_append (P : ℕ → Pos → Bool) (i : ℕ) (as bs : List Pos) :
    filterIdxAux P i (as ++ bs) =
      filterIdxAux P i as ++ filterIdxAux P (i + as.length) bs := by
  induction as generalizing i with
  | nil => simp [filterIdxAux]
  | cons a t ih =>
      by_cases h : P i a <;>
        simp [filterIdxAux, h, ih, Nat.add_assoc, Nat.add_comm 1 t.length]

lemma filterIdxAux_all_kept (P : ℕ → Pos → Bool) (as : List Pos)
    (h : ∀ w ∈ as, ∀ i, P i w = true) : ∀ i, filterIdxAux P i as = as := by
  induction as with
  | nil => intro i; rfl
  | cons a t ih =>
      intro i
      have ha : P i a = true := h a (List.mem_cons_self a t) i
      simp only [filterIdxAux, ha, if_pos]
      rw [ih (fun w hw j => h w (List.mem_cons_of_mem a hw) j)]

lemma filterIdxAux_sublist (P : ℕ → Pos → Bool) (as : List Pos) :
    ∀ i, (filterIdxAux P i as).Sublist as := by
  induction as with
  | nil => intro i; simp [filterIdxAux]
  | cons a t ih =>
      intro i
      by_cases h : P i a
      · simpa [filterIdxAux, h] using (ih (i + 1)).cons₂ a
      · simpa [filterIdxAux, h] using (ih (i + 1)).cons a

/-! ### Route model -/

/-- A candidate route.  Modelled from the spec: class `Route` of the
missing tools module, mirroring the constructor call
`Route(origin, destination, TAS, wypts, distance, time, deviation)` of the
source. -/
structure Route where
  origin : Pos
  destination : Pos
  TAS : ℚ
  waypoints : List Pos
  distance : ℝ
  time : ℝ
  deviation : ℝ

/-- A throwaway route value, default for out-of-range list accesses. -/
def dummyRoute : Route :=
  { origin := posZero, destination := posZero, TAS := 0,
    waypoints := [], distance := 0, time := 0, deviation := 0 }

/-- Evenly spaced waypoints from `o` to `d`, `nseg` segments (`nseg + 1`
points, endpoints included).  Modelled from the spec: `parse` /
`buildStraightRoute` "produces evenly spaced waypoints along the
origin→destination line ... always includes origin and destination as
first/last points"; the configured average spacing is abstracted by the
segment count `nseg`. -/
def parseWypts (o d : Pos) (nseg : ℕ) : List Pos :=
  (List.range (nseg + 1)).map (fun k =>
    ⟨o.x + (k : ℚ) / (nseg : ℚ) * (d.x - o.x), o.y + (k : ℚ) / (nseg : ℚ) * (d.y - o.y)⟩)

/-- Remove the intermediate waypoints that lie inside an obstacle, keeping
the first and last waypoint.  Modelled from the spec: `Route.clean`
"removes ... every waypoint (other than origin/destination) that lies
inside any obstacle polygon". -/
def cleanMid (obsDic : List Obs) : List Pos → List Pos
  | [] => []
  | [d] => [d]
  | w :: t => if insideAny obsDic w then cleanMid obsDic t else w :: cleanMid obsDic t

/-- Waypoint cleanup keeping the endpoints, see `cleanMid`. -/
def cleanWaypoints (obsDic : List Obs) : List Pos → List Pos
  | [] => []
  | a :: t => a :: cleanMid obsDic t

lemma cleanMid_nil_obs : ∀ l : List Pos, cleanMid [] l = l
  | [] => rfl
  | [d] => rfl
  | w :: x :: t => by
      simpa [cleanMid, insideAny] using cleanMid_nil_obs (x :: t)

lemma cleanWaypoints_nil_obs (l : List Pos) : cleanWaypoints [] l = l := by
  cases l with
  | nil => rfl
  | cons a t => simp [cleanWaypoints, cleanMid_nil_obs]

/-- The direct route of the source (lines 133–135 and 155): straight
waypoints from `parse`, cleaned of waypoints inside obstacles, with the
direct distance as cost and zero deviation. -/
noncomputable def directRoute (origin destination : Pos) (TAS : ℚ)
    (obsDic : List Obs) (nseg : ℕ) : Route :=
  let distance := (destination.sub origin).len
  { origin := origin, destination := destination, TAS := TAS,
    waypoints := cleanWaypoints obsDic (parseWypts origin destination nseg),
    distance := distance, time := distance / (TAS : ℝ), deviation := 0 }

/-! ### Python list primitives used by the driver -/

/-- `min(l)` of Python over a nonempty list (`0` for the empty list, which
the driver never passes). -/
noncomputable def pyMin : List ℝ → ℝ
  | [] => 0
  | x :: t => t.foldl min x

/-- `l.index(a)` of Python: index of the first occurrence. -/
def pyIndex {α : Type} [DecidableEq α] (a : α) : List α → ℕ
  | [] => 0
  | b :: t => if b = a then 0 else pyIndex a t + 1

/-! ### Best-first selection (source lines 215–229) -/

/-- Pop the parent route from the open set: with exactly one entry,
`pop()` (the last element); otherwise pop the entry at the first index of
minimal `deviation`.  Translated from the source. -/
noncomputable def selectParent (l : List Route) : Route × List Route :=
  if l.length = 1 then (l.getLastD dummyRoute, l.dropLast)
  else
    let deviationmin := l.map Route.deviation
    let topop := pyIndex (pyMin deviationmin) deviationmin
    (l.getD topop dummyRoute, l.eraseIdx topop)

/-! ### Branching-obstacle selection (source lines 277–320) -/

/-- For each obstacle, the minimal intersected route-segment index, or
`none` for no intersection (the source's `firstseg` list with `np.nan`
mapped to `none`). -/
def firstsegs (allints : List (List (ℕ × ℕ))) : List (Option ℕ) :=
  allints.map (fun l =>
    match l.map Prod.fst with
    | [] => none
    | r :: rs => some (rs.foldl min r))

/-- `min(valid_firstseg)`: minimum over the defined entries (`0` if none
are defined, which cannot happen under the branch guard). -/
def minValidFirstseg (fs : List (Option ℕ)) : ℕ :=
  match fs.filterMap id with
  | [] => 0
  | x :: t => t.foldl min x

/-- The index of the obstacle to branch on, translated from source lines
277–320: the obstacle with the minimal first intersected route segment;
on ties, the scan over `distlist`/`options` (note: the source accumulates
`distlist` across the tied obstacles without resetting it, and scans every
intersection entry of a tied obstacle, not only those on the minimal
route segment). -/
noncomputable def selectBranchObstacle (obsDic : List Obs) (parent : Route)
    (allints : List (List (ℕ × ℕ))) : ℕ :=
  let firstseg := firstsegs allints
  let m := minValidFirstseg firstseg
  if 1 < firstseg.count (some m) then
    let indices := (firstseg.enum.filter (fun p => p.2 = some m)).map Prod.fst
    let refpt := parent.waypoints.getD m posZero
    let routpt1 := parent.waypoints.getD m posZero
    let routpt2 := parent.waypoints.getD (m + 1) posZero
    let step := fun (acc : List ℝ × List ℝ) (oi : ℕ) =>
      let o := obsDic.getD oi obsEmpty
      let distlist := acc.1 ++ (allints.getD oi []).map (fun e =>
        ((intersectionpt (o.vert.getD e.2 posZero) (o.vert.getD (e.2 + 1) posZero)
            routpt1 routpt2).sub refpt).len)
      (distlist, acc.2 ++ [pyMin distlist])
    let options := (indices.foldl step ([], [])).2
    indices.getD (pyIndex (pyMin options) options) 0
  else
    pyIndex (some m) firstseg

/-! ### Detour machinery (missing tools module, modelled from the spec) -/

/-- Insertion sort by a real-valued key (ascending). -/
noncomputable def insertSorted (key : ℕ → ℝ) (e : ℕ) : List ℕ → List ℕ
  | [] => [e]
  | b :: t => if key e ≤ key b then e :: b :: t else b :: insertSorted key e t

/-- Sort by a real-valued key (ascending, insertion sort). -/
noncomputable def sortByKey (key : ℕ → ℝ) : List ℕ → List ℕ
  | [] => []
  | e :: t => insertSorted key e (sortByKey key t)

/-- Modelled from the spec: `resort` / `reorderByEncounter` "re-sorts the
obstacle edges that intersect the first intersected route segment so they
appear in the order the route would actually traverse them (by projecting
each edge's intersection point's distance from the route segment's start
point)". -/
noncomputable def Obs.resort (o : Obs) (segList : List ℕ) (parent : Route)
    (intersectTab : List (ℕ × ℕ)) : List ℕ :=
  let rs := (intersectTab.getD 0 (0, 0)).1
  let p1 := parent.waypoints.getD rs posZero
  let p2 := parent.waypoints.getD (rs + 1) posZero
  sortByKey (fun e =>
    ((intersectionpt (o.vert.getD e posZero) (o.vert.getD (e + 1) posZero) p1 p2).sub p1).len)
    segList

/-- Modelled from the spec: `leftalt` / `leftDetour` walks "the obstacle's
vertex ring in the decreasing-index direction ... starting just before the
first intersected edge and ending just after the last intersected edge". -/
def Obs.leftalt (o : Obs) (segList : List ℕ) : List Pos :=
  let n := o.vert.length - 1
  if n = 0 then []
  else
    let a := segList.headD 0 % n
    let b := (segList.getLastD 0 + 1) % n
    let steps := (a + n - b) % n + 1
    (List.range steps).map (fun k => o.vert.getD ((a + n - k) % n) posZero)

/-- Modelled from the spec: `rightalt` / `rightDetour` walks the vertex
ring in the increasing-index direction around the other side. -/
def Obs.rightalt (o : Obs) (segList : List ℕ) : List Pos :=
  let n := o.vert.length - 1
  if n = 0 then []
  else
    let a := (segList.headD 0 + 1) % n
    let b := segList.getLastD 0 % n
    let steps := (b + n - a) % n + 1
    (List.range steps).map (fun k => o.vert.getD ((a + k) % n) posZero)

/-- Modelled from the spec: `extupdate` / `cleanDetour` "removes a detour
waypoint if it duplicates the destination or duplicates the immediately
preceding point". -/
def Obs.extupdate (_o : Obs) (wlist : List Pos) (destination : Pos) : List Pos :=
  dedupConsec (wlist.filter (fun w => w ≠ destination))

/-! ### Branch construction (source lines 387–426) -/

/-- `Route.insert`: splice the detour waypoints in at position `idx`.
Modelled from the spec: "splices a detour's waypoint sequence into the
route immediately after position `index`". -/
def insertWypts (wypts : List Pos) (idx : ℕ) (alt : List Pos) : List Pos :=
  wypts.take idx ++ alt ++ wypts.drop idx

/-- `Route.backwardcleanup`: drop waypoints up to index `lstpt` (other
than the first) that lie inside an obstacle, then collapse consecutive
duplicates.  Modelled from the spec: "re-examines waypoints from the
insertion point backward and forward up to `lastIndexToConsider` and
removes any that have become interior to an obstacle or redundant". -/
def backwardcleanup (obsDic : List Obs) (lstpt : ℕ) (wypts : List Pos) : List Pos :=
  dedupConsec (filterIdxAux
    (fun i w => decide (i = 0) || decide (lstpt < i) || !insideAny obsDic w) 0 wypts)

/-- Build one trial route from a parent: the source's
`Route(origin, destination, TAS, parent.waypoints, parent.distance,
parent.time, parent.deviation)` followed by `insert`, `backwardcleanup`
and `deviationcheck` (lines 387–399 for `routeL`, 412–424 for `routeR`).
The cost recomputation and deviation are modelled from the spec
(`recomputeCost` / `deviationRelativeTo`, wind disabled: `windsOn = 0`). -/
noncomputable def mkBranch (obsDic : List Obs) (origin destination : Pos) (TAS : ℚ)
    (priority : ℕ) (parent : Route) (altWptIndex : ℕ) (altClean : List Pos) : Route :=
  let lstpt := altWptIndex + altClean.length
  let wypts := backwardcleanup obsDic lstpt (insertWypts parent.waypoints altWptIndex altClean)
  let d := pathDist wypts
  let t := d / (TAS : ℝ)
  { origin := origin, destination := destination, TAS := TAS,
    waypoints := wypts, distance := d, time := t,
    deviation := if priority = 0 then d - parent.distance else t - parent.time }

/-! ### The search loop (source lines 198–464) -/

/-- The loop state: the open set `Route.active` and the incumbent.  The
source keeps `incflag`/`incumbent` in lockstep (`incumbent` starts as the
sentinel `float('inf')` and is a route exactly when `incflag == 1`), which
is embedded as an `Option`. -/
structure SearchState where
  active : List Route
  incumbent : Option Route

/-- Outcome of one loop iteration. -/
inductive StepRes where
  | raiseNoRoute : StepRes
  | finished : Option Route → StepRes
  | next : SearchState → StepRes
deriving Inhabited

/-- The fathom test of source lines 240–259: with an incumbent, discard
the popped parent when its cost under the active metric is no better. -/
noncomputable def fathoms (priority : ℕ) (inc parent : Route) : Bool :=
  if priority = 0 then decide (inc.distance ≤ parent.distance)
  else if priority = 1 then decide (inc.time ≤ parent.time)
  else false

/-- The incumbent update of source lines 441–464: first feasible route, or
strict improvement under the active metric. -/
noncomputable def updateIncumbent (priority : ℕ) (inc : Option Route)
    (parent : Route) : Option Route :=
  match inc with
  | none => some parent
  | some i =>
      if priority = 0 then (if parent.distance < i.distance then some parent else some i)
      else if priority = 1 then (if parent.time < i.time then some parent else some i)
      else some i

/-- All-obstacle intersection tabulation of source lines 266–269. -/
def allIntersections (obsDic : List Obs) (parent : Route) : List (List (ℕ × ℕ)) :=
  obsDic.map (fun o => o.intersectWypts parent.waypoints)

/-- The branching step of source lines 277–430: pick the branching
obstacle, build the left and right detours, and push both trial routes. -/
noncomputable def branchStep (obsDic : List Obs) (origin destination : Pos) (TAS : ℚ)
    (priority : ℕ) (parent : Route) (rest : List Route)
    (allints : List (List (ℕ × ℕ))) (inc : Option Route) : SearchState :=
  let branch := selectBranchObstacle obsDic parent allints
  let intersectTab := allints.getD branch []
  let o := obsDic.getD branch obsEmpty
  let segList0 := intersectTab.map Prod.snd
  let segList := o.resort segList0 parent intersectTab
  let altWptL := o.leftalt segList
  let altWptR := o.rightalt segList
  let altWptLclean := o.extupdate altWptL destination
  let altWptRclean := o.extupdate altWptR destination
  let altWptIndex := (intersectTab.getD 0 (0, 0)).1 + 1
  let routeL := mkBranch obsDic origin destination TAS priority parent altWptIndex altWptLclean
  let routeR := mkBranch obsDic origin destination TAS priority parent altWptIndex altWptRclean
  { active := rest ++ [routeL, routeR], incumbent := inc }

/-- One iteration of the `while len(Route.active)` loop (source lines
201–464): loop-exit test, the hard cap of 500 on the open-set size,
best-first selection, fathoming, intersection testing, and branching or
incumbent update. -/
noncomputable def loopStep (priority : ℕ) (obsDic : List Obs)
    (origin destination : Pos) (TAS : ℚ) (s : SearchState) : StepRes :=
  if s.active.length = 0 then .finished s.incumbent
  else if 500 < s.active.length then .raiseNoRoute
  else
    let pr := selectParent s.active
    let parent := pr.1
    let rest := pr.2
    match s.incumbent with
    | some inc =>
        if fathoms priority inc parent then .next { active := rest, incumbent := some inc }
        else
          let allints := allIntersections obsDic parent
          if (allints.filter (fun l => l ≠ [])).length ≠ 0 then
            .next (branchStep obsDic origin destination TAS priority parent rest allints (some inc))
          else
            .next { active := rest, incumbent := updateIncumbent priority (some inc) parent }
    | none =>
        let allints := allIntersections obsDic parent
        if (allints.filter (fun l => l ≠ [])).length ≠ 0 then
          .next (branchStep obsDic origin destination TAS priority parent rest allints none)
        else
          .next { active := rest, incumbent := some parent }

/-- Outcome of running the loop. -/
inductive LoopOut where
  | noRoute : LoopOut
  | done : Option Route → LoopOut
  | fuelOut : LoopOut
deriving Inhabited

/-- Iterate `loopStep` with explicit fuel (the source's loop is unbounded;
`fuelOut` is a modelling artifact, not a behaviour of the source). -/
noncomputable def runLoop (priority : ℕ) (obsDic : List Obs)
    (origin destination : Pos) (TAS : ℚ) : ℕ → SearchState → LoopOut
  | 0, _ => .fuelOut
  | n + 1, s =>
      match loopStep priority obsDic origin destination TAS s with
      | .raiseNoRoute => .noRoute
      | .finished inc => .done inc
      | .next s' => runLoop priority obsDic origin destination TAS n s'

/-! ### Top-level function (source lines 31–494) -/

/-- Modelled from the spec: `project` / `LatLon2XY` converts geographic
degrees to planar nautical miles with an equirectangular scaling (the
longitude scale factor of the reference parallel is taken as 1). -/
def LatLon2XY (lat lon : ℚ) : ℚ × ℚ := (60 * lon, 60 * lat)

/-- Modelled from the spec: `unproject` / `XY2LatLon` is the exact inverse
of `LatLon2XY`. -/
def XY2LatLon (x y : ℚ) : ℚ × ℚ := (y / 60, x / 60)

/-- A geographic coordinate as a planar position. -/
def toXY (lat lon : ℚ) : Pos := ⟨(LatLon2XY lat lon).1, (LatLon2XY lat lon).2⟩

/-- Projection of the input polygons into the plane and packaging as
obstacles (source lines 99–112). -/
def mkObstacles (inputObs : List (List (ℚ × ℚ))) : List Obs :=
  inputObs.map (fun polygon => ⟨polygon.map (fun v => toXY v.1 v.2)⟩)

/-- The seeding of the open set at source line 157:
`Route.active[-1] = directrt` overwrites the last element of the shared
class-level list; on an empty list Python raises `IndexError`. -/
def seedActive (activeIn : List Route) (directrt : Route) : Option (List Route) :=
  match activeIn with
  | [] => none
  | _ => some (activeIn.dropLast ++ [directrt])

/-- The internal optimization-strategy constant of source line 43
(`0` for distance, `1` for time); it is a local constant of
`det_path_planning`, not one of its parameters. -/
def optimizationpriority : ℕ := 0

/-- The internal wind flag of source line 41 (winds disabled). -/
def windsOn : ℕ := 0

/-- How a call of `det_path_planning` can fail.  `noRouteFound` is the
`Exception("Impossible to find a route")` of source line 212;
`seedIndexError` is the `IndexError` a call with an empty `Route.active`
hits at line 157; `sentinelCrash` is the crash line 470 would hit if the
loop finished with `incumbent` still the `float('inf')` sentinel;
`outOfFuel` is the modelling artifact for an unfinished loop. -/
inductive PlanErr where
  | noRouteFound : PlanErr
  | seedIndexError : PlanErr
  | sentinelCrash : PlanErr
  | outOfFuel : PlanErr
deriving DecidableEq, Repr

/-- The search core shared by the translation and by the spec model:
build the direct route, seed the open set, run the loop, and project the
incumbent's waypoints back to latitude/longitude (source lines 86–494,
with the plotting, logging and wind-field side channels omitted as
presentation-layer concerns). -/
noncomputable def planCore (priority : ℕ) (fuel : ℕ) (activeIn : List Route)
    (lat0 lon0 : ℚ) (_altitude TAS : ℚ) (latdest londest : ℚ)
    (inputObs : List (List (ℚ × ℚ))) (nseg : ℕ) : Except PlanErr (List (ℚ × ℚ)) :=
  match seedActive activeIn
      (directRoute (toXY lat0 lon0) (toXY latdest londest) TAS (mkObstacles inputObs) nseg) with
  | none => .error .seedIndexError
  | some active0 =>
      match runLoop priority (mkObstacles inputObs) (toXY lat0 lon0) (toXY latdest londest)
          TAS fuel { active := active0, incumbent := none } with
      | .noRoute => .error .noRouteFound
      | .fuelOut => .error .outOfFuel
      | .done none => .error .sentinelCrash
      | .done (some inc) =>
          .ok (inc.waypoints.map (fun w => XY2LatLon w.x w.y))

/-- Translation of `det_path_planning(lat0, lon0, altitude, TAS, latdest,
londest, inputObs)`: the optimization priority is the internal constant
`optimizationpriority`, not a parameter.  `fuel`, `activeIn` and `nseg`
are modelling parameters: the iteration budget, the ambient content of the
class-level list `Route.active` at entry, and the direct-route segment
count of the missing `parse` helper. -/
noncomputable def det_path_planning (fuel : ℕ) (activeIn : List Route)
    (lat0 lon0 altitude TAS latdest londest : ℚ)
    (inputObs : List (List (ℚ × ℚ))) (nseg : ℕ) : Except PlanErr (List (ℚ × ℚ)) :=
  planCore optimizationpriority fuel activeIn lat0 lon0 altitude TAS latdest londest inputObs nseg

/-- Modelled from the spec (§6): the same core with the optimization
priority as a caller-supplied input flag — the interface the spec
describes, stated for comparison with the source's `det_path_planning`. -/
noncomputable def det_path_planning_spec (priority : ℕ) (fuel : ℕ) (activeIn : List Route)
    (lat0 lon0 altitude TAS latdest londest : ℚ)
    (inputObs : List (List (ℚ × ℚ))) (nseg : ℕ) : Except PlanErr (List (ℚ × ℚ)) :=
  planCore priority fuel activeIn lat0 lon0 altitude TAS latdest londest inputObs nseg

/-! ### Lemmas about the Python list primitives -/

lemma foldl_min_mem : ∀ (t : List ℝ) (x : ℝ), t.foldl min x ∈ x :: t := by
  intro t
  induction t with
  | nil => intro x; simp
  | cons c t ih =>
      intro x
      rw [List.foldl_cons]
      rcases List.mem_cons.mp (ih (min x c)) with h | h
      · rw [h]
        rcases le_total x c with hx | hx
        · rw [min_eq_left hx]
          exact List.mem_cons_self _ _
        · rw [min_eq_right hx]
          exact List.mem_cons_of_mem _ (List.mem_cons_self _ _)
      · exact List.mem_cons_of_mem _ (List.mem_cons_of_mem _ h)

lemma foldl_min_le : ∀ (t : List ℝ) (x : ℝ), t.foldl min x ≤ x ∧ ∀ y ∈ t, t.foldl min x ≤ y := by
  intro t
  induction t with
  | nil => intro x; simp
  | cons c t ih =>
      intro x
      obtain ⟨h1, h2⟩ := ih (min x c)
      rw [List.foldl_cons]
      refine ⟨le_trans h1 (min_le_left x c), ?_⟩
      intro y hy
      rcases List.mem_cons.mp hy with hy | hy
      · rw [hy]
        exact le_trans h1 (min_le_right x c)
      · exact h2 y hy

lemma pyMin_mem {l : List ℝ} (h : l ≠ []) : pyMin l ∈ l := by
  cases l with
  | nil => exact absurd rfl h
  | cons x t => simpa [pyMin] using foldl_min_mem t x

lemma pyMin_le {l : List ℝ} : ∀ y ∈ l, pyMin l ≤ y := by
  cases l with
  | nil => intro y hy; simp at hy
  | cons x t =>
      intro y hy
      obtain ⟨h1, h2⟩ := foldl_min_le t x
      rcases List.mem_cons.mp hy with hy | hy
      · subst hy; simpa [pyMin] using h1
      · simpa [pyMin] using h2 y hy

lemma pyIndex_lt_length {α : Type} [DecidableEq α] {a : α} :
    ∀ {l : List α}, a ∈ l → pyIndex a l < l.length := by
  intro l
  induction l with
  | nil => intro h; simp at h
  | cons b t ih =>
      intro h
      by_cases hb : b = a
      · simp [pyIndex, hb]
      · have ha : a ∈ t := by
          rcases List.mem_cons.mp h with h | h
          · exact absurd h.symm hb
          · exact h
        simpa [pyIndex, hb, Nat.succ_lt_succ_iff] using ih ha

lemma getD_pyIndex {α : Type} [DecidableEq α] {a : α} (d : α) :
    ∀ {l : List α}, a ∈ l → l.getD (pyIndex a l) d = a := by
  intro l
  induction l with
  | nil => intro h; simp at h
  | cons b t ih =>
      intro h
      by_cases hb : b = a
      · simp [pyIndex, hb]
      · have ha : a ∈ t := by
          rcases List.mem_cons.mp h with h | h
          · exact absurd h.symm hb
          · exact h
        simpa [pyIndex, hb] using ih ha

lemma getD_before_pyIndex {α : Type} [DecidableEq α] {a : α} (d : α) :
    ∀ {l : List α} {j : ℕ}, j < pyIndex a l → l.getD j d ≠ a := by
  intro l
  induction l with
  | nil => intro j h; simp [pyIndex] at h
  | cons b t ih =>
      intro j h
      by_cases hb : b = a
      · simp [pyIndex, hb] at h
      · cases j with
        | zero => simpa using hb
        | succ j =>
            simp only [pyIndex, hb, if_false, Nat.succ_lt_succ_iff] at h
            simpa using ih h

lemma getD_mem_of_lt {α : Type} (d : α) :
    ∀ {l : List α} {i : ℕ}, i < l.length → l.getD i d ∈ l := by
  intro l
  induction l with
  | nil => intro i h; simp at h
  | cons b t ih =>
      intro i h
      cases i with
      | zero => simp
      | succ i =>
          exact List.mem_cons_of_mem _ (ih (by simpa using h))

lemma getD_map_deviation (l : List Route) :
    ∀ i, i < l.length → (l.map Route.deviation).getD i 0 = (l.getD i dummyRoute).deviation := by
  induction l with
  | nil => intro i h; simp at h
  | cons r t ih =>
      intro i h
      cases i with
      | zero => rfl
      | succ i => simpa using ih i (by simpa using h)

lemma selectParent_singleton (r : Route) : selectParent [r] = (r, []) := by
  simp [selectParent]

/-! ### Claim theorems -/

/-- C4: on every loop iteration, if the open set has exactly one entry it
is popped; otherwise the entry at the lowest index attaining the minimum
deviation is popped, and the rest of the open set (`eraseIdx` of exactly
that index) is left intact. -/
theorem best_first_selection (l : List Route) (hne : l ≠ []) :
    ∃ i, i < l.length ∧
      selectParent l = (l.getD i dummyRoute, l.eraseIdx i) ∧
      (∀ j, j < l.length →
        (l.getD i dummyRoute).deviation ≤ (l.getD j dummyRoute).deviation) ∧
      (∀ j, j < i →
        (l.getD i dummyRoute).deviation < (l.getD j dummyRoute).deviation) := by
  by_cases h1 : l.length = 1
  · obtain ⟨r, hr⟩ : ∃ r, l = [r] := List.length_eq_one.mp h1
    subst hr
    refine ⟨0, by simp, by simp [selectParent_singleton], ?_, ?_⟩
    · intro j hj
      have hj0 : j = 0 := by simpa using Nat.lt_one_iff.mp (by simpa using hj)
      subst hj0
      exact le_refl _
    · intro j hj
      exact absurd hj (Nat.not_lt_zero j)
  · have hdev : l.map Route.deviation ≠ [] := by
      simpa using hne
    have hmem : pyMin (l.map Route.deviation) ∈ l.map Route.deviation := pyMin_mem hdev
    set m := pyMin (l.map Route.deviation) with hm
    set i := pyIndex m (l.map Route.deviation) with hi
    have hilt : i < l.length := by
      simpa using pyIndex_lt_length hmem
    refine ⟨i, hilt, ?_, ?_, ?_⟩
    · simp only [selectParent, if_neg h1]
    · intro j hj
      have hgi : (l.map Route.deviation).getD i 0 = m := getD_pyIndex 0 hmem
      have hgi' := getD_map_deviation l i hilt
      have hgj' := getD_map_deviation l j hj
      rw [← hgi', ← hgj', hgi]
      exact pyMin_le _ (getD_mem_of_lt 0 (by simpa using hj))
    · intro j hj
      have hgi : (l.map Route.deviation).getD i 0 = m := getD_pyIndex 0 hmem
      have hjl : j < l.length := lt_trans hj hilt
      have hgi' := getD_map_deviation l i hilt
      have hgj' := getD_map_deviation l j hjl
      have hne2 : (l.map Route.deviation).getD j 0 ≠ m := getD_before_pyIndex 0 hj
      have hle : m ≤ (l.map Route.deviation).getD j 0 :=
        pyMin_le _ (getD_mem_of_lt 0 (by simpa using hjl))
      rw [← hgi', ← hgj', hgi]
      exact lt_of_le_of_ne hle (fun h => hne2 h.symm)

/-- C4 witness: with two routes of deviations 5 and 3, the selection pops
the (unique) minimum at index 1. -/
theorem best_first_selection_witness :
    ∃ i, i < ([{ dummyRoute with deviation := 5 },
        { dummyRoute with deviation := 3 }] : List Route).length ∧
      selectParent [{ dummyRoute with deviation := 5 }, { dummyRoute with deviation := 3 }] =
        (([{ dummyRoute with deviation := 5 },
            { dummyRoute with deviation := 3 }] : List Route).getD i dummyRoute,
          ([{ dummyRoute with deviation := 5 },
            { dummyRoute with deviation := 3 }] : List Route).eraseIdx i) ∧
      (∀ j, j < ([{ dummyRoute with deviation := 5 },
          { dummyRoute with deviation := 3 }] : List Route).length →
        (([{ dummyRoute with deviation := 5 },
            { dummyRoute with deviation := 3 }] : List Route).getD i dummyRoute).deviation ≤
          (([{ dummyRoute with deviation := 5 },
            { dummyRoute with deviation := 3 }] : List Route).getD j dummyRoute).deviation) ∧
      (∀ j, j < i →
        (([{ dummyRoute with deviation := 5 },
            { dummyRoute with deviation := 3 }] : List Route).getD i dummyRoute).deviation <
          (([{ dummyRoute with deviation := 5 },
            { dummyRoute with deviation := 3 }] : List Route).getD j dummyRoute).deviation) :=
  best_first_selection _ (by simp)

/-- C2: an iteration raises the fatal "Impossible to find a route"
exception exactly when the open set holds more than 500 entries (the raise
is the only fatal outcome of an iteration), and a run that ends with the
fatal error has reached a state whose open set exceeds the cap. -/
theorem openset_cap_guard (priority : ℕ) (obsDic : List Obs) (origin destination : Pos)
    (TAS : ℚ) :
    (∀ s : SearchState,
        loopStep priority obsDic origin destination TAS s = .raiseNoRoute ↔
          500 < s.active.length) ∧
    (∀ (fuel : ℕ) (s : SearchState),
        runLoop priority obsDic origin destination TAS fuel s = .noRoute →
          ∃ s', Relation.ReflTransGen
              (fun a b => loopStep priority obsDic origin destination TAS a = .next b) s s' ∧
            500 < s'.active.length) := by
  have hstep : ∀ s : SearchState,
      loopStep priority obsDic origin destination TAS s = .raiseNoRoute ↔
        500 < s.active.length := by
    intro s
    by_cases h0 : s.active.length = 0
    · rw [loopStep, if_pos h0]
      constructor
      · intro h; exact absurd h (by simp)
      · intro h; omega
    · by_cases hc : 500 < s.active.length
      · rw [loopStep, if_neg h0, if_pos hc]
        exact ⟨fun _ => hc, fun _ => rfl⟩
      · cases hI : s.incumbent with
        | none =>
            simp only [loopStep, if_neg h0, if_neg hc, hI]
            split_ifs <;> simp [hc]
        | some inc =>
            simp only [loopStep, if_neg h0, if_neg hc, hI]
            split_ifs <;> simp [hc]
  refine ⟨hstep, ?_⟩
  intro fuel
  induction fuel with
  | zero => intro s h; simp [runLoop] at h
  | succ n ih =>
      intro s h
      simp only [runLoop] at h
      cases hls : loopStep priority obsDic origin destination TAS s with
      | raiseNoRoute =>
          exact ⟨s, Relation.ReflTransGen.refl, (hstep s).mp hls⟩
      | finished inc => rw [hls] at h; simp at h
      | next s' =>
          rw [hls] at h
          obtain ⟨s'', hreach, hcap⟩ := ih s' h
          exact ⟨s'', Relation.ReflTransGen.head hls hreach, hcap⟩

/-- C2 witness: a state with 501 open routes makes the iteration raise. -/
theorem openset_cap_guard_witness :
    loopStep 0 [] posZero posZero 0
        { active := List.replicate 501 dummyRoute, incumbent := none } = .raiseNoRoute :=
  ((openset_cap_guard 0 [] posZero posZero 0).1
    { active := List.replicate 501 dummyRoute, incumbent := none }).mpr
    (by rw [List.length_replicate]; exact Nat.lt_succ_self 500)

/-- C5: when an incumbent exists and the popped route's cost under the
active metric (distance for priority 0, time for priority 1) is at least
the incumbent's, the iteration discards the popped route: the next state
keeps the remaining open set and the incumbent unchanged, with no
branching. -/
theorem fathom_prunes_popped (priority : ℕ) (obsDic : List Obs) (origin destination : Pos)
    (TAS : ℚ) (s : SearchState) (inc : Route)
    (hinc : s.incumbent = some inc)
    (h0 : s.active.length ≠ 0) (hcap : ¬ 500 < s.active.length)
    (hcost : (priority = 0 ∧ inc.distance ≤ (selectParent s.active).1.distance) ∨
             (priority = 1 ∧ inc.time ≤ (selectParent s.active).1.time)) :
    loopStep priority obsDic origin destination TAS s =
      .next { active := (selectParent s.active).2, incumbent := s.incumbent } := by
  have hf : fathoms priority inc (selectParent s.active).1 = true := by
    rcases hcost with ⟨hp, hd⟩ | ⟨hp, hd⟩ <;> simp [fathoms, hp, hd]
  simp [loopStep, h0, hcap, hinc, hf]

/-- A route with a prescribed distance, for concrete fathoming states. -/
noncomputable def fRoute (q : ℚ) : Route := { dummyRoute with distance := (q : ℝ) }

/-- C5 witness: with incumbent distance 3 and popped distance 5 under
distance priority, the iteration discards the popped route. -/
theorem fathom_prunes_popped_witness :
    loopStep 0 [] posZero posZero 0 { active := [fRoute 5], incumbent := some (fRoute 3) } =
      .next { active := (selectParent [fRoute 5]).2, incumbent := some (fRoute 3) } :=
  fathom_prunes_popped 0 [] posZero posZero 0
    { active := [fRoute 5], incumbent := some (fRoute 3) } (fRoute 3) rfl
    (by simp) (by simp)
    (Or.inl ⟨rfl, by
      rw [selectParent_singleton]
      show ((3 : ℚ) : ℝ) ≤ ((5 : ℚ) : ℝ)
      norm_num⟩)

/-- C10: the open set lives in the shared list `Route.active` and is
seeded by overwriting its last element: a call finding it empty fails with
an index error (both at the seeding step and for the whole call), and a
call finding it non-empty silently replaces the last occupant, preserving
the list's length. -/
theorem sharedActive_seed_semantics :
    (∀ r : Route, seedActive [] r = none) ∧
    (∀ (fuel : ℕ) (lat0 lon0 altitude TAS latdest londest : ℚ)
        (inputObs : List (List (ℚ × ℚ))) (nseg : ℕ),
      det_path_planning fuel [] lat0 lon0 altitude TAS latdest londest inputObs nseg =
        .error .seedIndexError) ∧
    (∀ (a : List Route) (r : Route), a ≠ [] →
      seedActive a r = some (a.dropLast ++ [r]) ∧
      (a.dropLast ++ [r]).length = a.length ∧
      (a.dropLast ++ [r]).getLast? = some r) := by
  refine ⟨fun r => rfl, ?_, ?_⟩
  · intro fuel lat0 lon0 altitude TAS latdest londest inputObs nseg
    rfl
  · intro a r ha
    refine ⟨?_, ?_, ?_⟩
    · cases a with
      | nil => exact absurd rfl ha
      | cons x t => rfl
    · rw [List.length_append, List.length_dropLast]
      cases a with
      | nil => exact absurd rfl ha
      | cons x t => simp
    · exact List.getLast?_concat _

/-- C10 witness: seeding a one-element ambient open set replaces that
element. -/
theorem sharedActive_seed_semantics_witness :
    seedActive [fRoute 7] dummyRoute = some (([fRoute 7] : List Route).dropLast ++ [dummyRoute]) ∧
    (([fRoute 7] : List Route).dropLast ++ [dummyRoute]).length = ([fRoute 7] : List Route).length ∧
    (([fRoute 7] : List Route).dropLast ++ [dummyRoute]).getLast? = some dummyRoute :=
  sharedActive_seed_semantics.2.2 [fRoute 7] dummyRoute (by simp)

/-! ### Loop invariants -/

lemma loopStep_finished_inv {priority : ℕ} {obsDic : List Obs} {origin destination : Pos}
    {TAS : ℚ} {s : SearchState} {inc : Option Route}
    (h : loopStep priority obsDic origin destination TAS s = .finished inc) :
    inc = s.incumbent ∧ s.active = [] := by
  by_cases h0 : s.active.length = 0
  · rw [loopStep, if_pos h0] at h
    cases h
    exact ⟨rfl, List.length_eq_zero.mp h0⟩
  · by_cases hc : 500 < s.active.length
    · rw [loopStep, if_neg h0, if_pos hc] at h
      cases h
    · cases hI : s.incumbent with
      | none =>
          simp only [loopStep, if_neg h0, if_neg hc, hI] at h
          split_ifs at h
      | some i =>
          simp only [loopStep, if_neg h0, if_neg hc, hI] at h
          split_ifs at h

lemma updateIncumbent_some_isSome (priority : ℕ) (i parent : Route) :
    (updateIncumbent priority (some i) parent).isSome := by
  simp only [updateIncumbent]
  split_ifs <;> simp

lemma loopStep_next_incumbent {priority : ℕ} {obsDic : List Obs} {origin destination : Pos}
    {TAS : ℚ} {s : SearchState} {s' : SearchState}
    (h : loopStep priority obsDic origin destination TAS s = .next s') :
    s'.incumbent = s.incumbent ∨
    ∃ parent, s'.incumbent = some parent ∧
      ((allIntersections obsDic parent).filter (fun l => l ≠ [])).length = 0 := by
  by_cases h0 : s.active.length = 0
  · rw [loopStep, if_pos h0] at h
    cases h
  · by_cases hc : 500 < s.active.length
    · rw [loopStep, if_neg h0, if_pos hc] at h
      cases h
    · cases hI : s.incumbent with
      | none =>
          simp only [loopStep, if_neg h0, if_neg hc, hI] at h
          split_ifs at h with hint
          · cases h
            left
            rfl
          · cases h
            right
            exact ⟨(selectParent s.active).1, rfl, by omega⟩
      | some i =>
          simp only [loopStep, if_neg h0, if_neg hc, hI] at h
          split_ifs at h with hf hint
          · cases h
            left
            rfl
          · cases h
            left
            rfl
          · cases h
            show (updateIncumbent priority (some i) (selectParent s.active).1) = _ ∨ _
            simp only [updateIncumbent]
            split_ifs
            · right
              exact ⟨(selectParent s.active).1, rfl, by omega⟩
            · left
              rfl
            · right
              exact ⟨(selectParent s.active).1, rfl, by omega⟩
            · left
              rfl
            · left
              rfl

lemma loopStep_next_sound {priority : ℕ} {obsDic : List Obs} {origin destination : Pos}
    {TAS : ℚ} {s : SearchState} {s' : SearchState}
    (h : loopStep priority obsDic origin destination TAS s = .next s') :
    s'.incumbent.isSome ∨ s'.active ≠ [] := by
  by_cases h0 : s.active.length = 0
  · rw [loopStep, if_pos h0] at h
    cases h
  · by_cases hc : 500 < s.active.length
    · rw [loopStep, if_neg h0, if_pos hc] at h
      cases h
    · cases hI : s.incumbent with
      | none =>
          simp only [loopStep, if_neg h0, if_neg hc, hI] at h
          split_ifs at h with hint
          · cases h
            right
            simp [branchStep]
          · cases h
            left
            rfl
      | some i =>
          simp only [loopStep, if_neg h0, if_neg hc, hI] at h
          split_ifs at h with hf hint
          · cases h
            left
            rfl
          · cases h
            right
            simp [branchStep]
          · cases h
            left
            exact updateIncumbent_some_isSome priority i _

lemma runLoop_done_feasible {priority : ℕ} {obsDic : List Obs} {origin destination : Pos}
    {TAS : ℚ} :
    ∀ (fuel : ℕ) (s : SearchState) (inc : Option Route),
      (∀ r, s.incumbent = some r →
        ((allIntersections obsDic r).filter (fun l => l ≠ [])).length = 0) →
      runLoop priority obsDic origin destination TAS fuel s = .done inc →
      ∀ r, inc = some r →
        ((allIntersections obsDic r).filter (fun l => l ≠ [])).length = 0 := by
  intro fuel
  induction fuel with
  | zero =>
      intro s inc _ h
      simp [runLoop] at h
  | succ n ih =>
      intro s inc hinv h
      simp only [runLoop] at h
      cases hls : loopStep priority obsDic origin destination TAS s with
      | raiseNoRoute => rw [hls] at h; cases h
      | finished inc0 =>
          rw [hls] at h
          cases h
          obtain ⟨hinc0, _⟩ := loopStep_finished_inv hls
          intro r hr
          exact hinv r (hinc0 ▸ hr)
      | next s' =>
          rw [hls] at h
          refine ih s' inc ?_ h
          rcases loopStep_next_incumbent hls with heq | ⟨parent, hpar, hfeas⟩
          · intro r hr
            exact hinv r (heq ▸ hr)
          · intro r hr
            rw [hpar] at hr
            cases hr
            exact hfeas

lemma runLoop_ne_done_none {priority : ℕ} {obsDic : List Obs} {origin destination : Pos}
    {TAS : ℚ} :
    ∀ (fuel : ℕ) (s : SearchState), (s.incumbent.isSome ∨ s.active ≠ []) →
      runLoop priority obsDic origin destination TAS fuel s ≠ .done none := by
  intro fuel
  induction fuel with
  | zero =>
      intro s _ h
      simp [runLoop] at h
  | succ n ih =>
      intro s hJ h
      simp only [runLoop] at h
      cases hls : loopStep priority obsDic origin destination TAS s with
      | raiseNoRoute => rw [hls] at h; cases h
      | finished inc0 =>
          rw [hls] at h
          cases h
          obtain ⟨hinc0, hact⟩ := loopStep_finished_inv hls
          rcases hJ with hJ | hJ
          · rw [← hinc0] at hJ
            simp at hJ
          · exact hJ hact
      | next s' =>
          rw [hls] at h
          exact ih s' (loopStep_next_sound hls) h

lemma allints_empty_iff (obsDic : List Obs) (parent : Route) :
    ((allIntersections obsDic parent).filter (fun l => l ≠ [])).length = 0 ↔
      ∀ o ∈ obsDic, o.intersectWypts parent.waypoints = [] := by
  rw [List.length_eq_zero, List.filter_eq_nil_iff]
  simp [allIntersections]

/-- With no obstacles, the first iteration pops the sole route and makes
it the incumbent. -/
lemma loopStep_no_obstacles (priority : ℕ) (origin destination : Pos) (TAS : ℚ) (r : Route) :
    loopStep priority [] origin destination TAS { active := [r], incumbent := none } =
      .next { active := [], incumbent := some r } := by
  simp [loopStep, selectParent_singleton, allIntersections]

/-- With no obstacles, the loop finishes in two iterations with the sole
route as incumbent. -/
lemma runLoop_no_obstacles (priority : ℕ) (origin destination : Pos) (TAS : ℚ) (r : Route)
    (fuel : ℕ) :
    runLoop priority [] origin destination TAS (fuel + 2)
        { active := [r], incumbent := none } = .done (some r) := by
  show runLoop priority [] origin destination TAS (fuel + 1 + 1) _ = _
  simp [runLoop, loopStep, selectParent_singleton, allIntersections]

/-- A call with no obstacles returns the direct route's waypoints,
projected back to latitude/longitude. -/
lemma det_no_obstacles (fuel : ℕ) (r0 : Route)
    (lat0 lon0 altitude TAS latdest londest : ℚ) (nseg : ℕ) :
    det_path_planning (fuel + 2) [r0] lat0 lon0 altitude TAS latdest londest [] nseg =
      .ok ((directRoute (toXY lat0 lon0) (toXY latdest londest) TAS [] nseg).waypoints.map
        (fun w => XY2LatLon w.x w.y)) := by
  have hm : mkObstacles [] = [] := rfl
  simp only [det_path_planning, planCore, hm, seedActive, List.dropLast_single,
    List.nil_append, runLoop_no_obstacles]

/-- C1: a successful call returns the waypoints of a route that, tested
against every obstacle via `intersectroute`, yields no intersecting
(route segment, obstacle edge) pair: the incumbent is only ever assigned
from a popped route whose intersection tabulation was empty for every
obstacle. -/
theorem returned_route_feasible (fuel : ℕ) (activeIn : List Route)
    (lat0 lon0 altitude TAS latdest londest : ℚ)
    (inputObs : List (List (ℚ × ℚ))) (nseg : ℕ) (ws : List (ℚ × ℚ))
    (h : det_path_planning fuel activeIn lat0 lon0 altitude TAS latdest londest inputObs nseg =
      .ok ws) :
    ∃ r : Route,
      ws = r.waypoints.map (fun w => XY2LatLon w.x w.y) ∧
      ∀ o ∈ mkObstacles inputObs, o.intersectWypts r.waypoints = [] := by
  simp only [det_path_planning, planCore] at h
  cases activeIn with
  | nil => cases h
  | cons a0 t0 =>
      simp only [seedActive] at h
      cases hrun : runLoop optimizationpriority (mkObstacles inputObs) (toXY lat0 lon0)
          (toXY latdest londest) TAS fuel
          { active := (a0 :: t0).dropLast ++
              [directRoute (toXY lat0 lon0) (toXY latdest londest) TAS
                (mkObstacles inputObs) nseg],
            incumbent := none } with
      | noRoute => rw [hrun] at h; cases h
      | fuelOut => rw [hrun] at h; cases h
      | done inc =>
          rw [hrun] at h
          cases inc with
          | none => cases h
          | some r =>
              refine ⟨r, ?_, ?_⟩
              · cases h
                rfl
              · rw [← allints_empty_iff]
                exact runLoop_done_feasible fuel _ (some r) (by intro r hr; cases hr) hrun r rfl

/-- C1 witness: a concrete successful call (no obstacles, origin (0,0),
destination (0,1)) returns an obstacle-free route. -/
theorem returned_route_feasible_witness :
    ∃ r : Route,
      [((0 : ℚ), (0 : ℚ)), ((0 : ℚ), (1 : ℚ))] = r.waypoints.map (fun w => XY2LatLon w.x w.y) ∧
      ∀ o ∈ mkObstacles [], o.intersectWypts r.waypoints = [] :=
  returned_route_feasible 2 [dummyRoute] 0 0 0 1 0 1 [] 1
    [((0 : ℚ), (0 : ℚ)), ((0 : ℚ), (1 : ℚ))] (by
      have h := det_no_obstacles 0 dummyRoute 0 0 0 1 0 1 1
      have h2 : (directRoute (toXY 0 0) (toXY 0 1) 1 [] 1).waypoints.map
          (fun w => XY2LatLon w.x w.y) = [((0 : ℚ), (0 : ℚ)), ((0 : ℚ), (1 : ℚ))] := by
        norm_num [directRoute, cleanWaypoints_nil_obs, parseWypts, toXY, LatLon2XY,
          XY2LatLon, List.range_succ, List.range_zero]
      rw [h2] at h
      exact h)

/-- C9: the loop can only exhaust the open set after recording an
incumbent, so the final access to the incumbent's waypoints never hits the
`float('inf')` sentinel: no call of `det_path_planning` crashes there. -/
theorem exit_implies_incumbent (fuel : ℕ) (activeIn : List Route)
    (lat0 lon0 altitude TAS latdest londest : ℚ)
    (inputObs : List (List (ℚ × ℚ))) (nseg : ℕ) :
    det_path_planning fuel activeIn lat0 lon0 altitude TAS latdest londest inputObs nseg ≠
      .error .sentinelCrash := by
  simp only [det_path_planning, planCore]
  cases activeIn with
  | nil =>
      simp only [seedActive]
      intro h
      cases h
  | cons a0 t0 =>
      simp only [seedActive]
      cases hrun : runLoop optimizationpriority (mkObstacles inputObs) (toXY lat0 lon0)
          (toXY latdest londest) TAS fuel
          { active := (a0 :: t0).dropLast ++
              [directRoute (toXY lat0 lon0) (toXY latdest londest) TAS
                (mkObstacles inputObs) nseg],
            incumbent := none } with
      | noRoute => intro h; cases h
      | fuelOut => intro h; cases h
      | done inc =>
          cases inc with
          | none =>
              exact absurd hrun (runLoop_ne_done_none fuel _ (Or.inr (by simp)))
          | some r => intro h; cases h

/-- C7: with an empty obstacle collection no branching occurs: the first
iteration pops the sole direct route and makes it the incumbent with the
open set emptied (so the open set never exceeds one route), the loop then
terminates with it, the direct route's waypoints survive cleanup
unchanged, and the returned sequence is exactly the direct straight-line
route's waypoints projected back to latitude/longitude. -/
theorem no_obstacle_returns_direct (fuel : ℕ) (r0 : Route)
    (lat0 lon0 altitude TAS latdest londest : ℚ) (nseg : ℕ) :
    (loopStep optimizationpriority [] (toXY lat0 lon0) (toXY latdest londest) TAS
        { active := [directRoute (toXY lat0 lon0) (toXY latdest londest) TAS [] nseg],
          incumbent := none } =
      .next { active := ([] : List Route),
              incumbent :=
                some (directRoute (toXY lat0 lon0) (toXY latdest londest) TAS [] nseg) }) ∧
    (runLoop optimizationpriority [] (toXY lat0 lon0) (toXY latdest londest) TAS (fuel + 2)
        { active := [directRoute (toXY lat0 lon0) (toXY latdest londest) TAS [] nseg],
          incumbent := none } =
      .done (some (directRoute (toXY lat0 lon0) (toXY latdest londest) TAS [] nseg))) ∧
    ((directRoute (toXY lat0 lon0) (toXY latdest londest) TAS [] nseg).waypoints =
      parseWypts (toXY lat0 lon0) (toXY latdest londest) nseg) ∧
    (det_path_planning (fuel + 2) [r0] lat0 lon0 altitude TAS latdest londest [] nseg =
      .ok ((parseWypts (toXY lat0 lon0) (toXY latdest londest) nseg).map
        (fun w => XY2LatLon w.x w.y))) := by
  have h3 : (directRoute (toXY lat0 lon0) (toXY latdest londest) TAS [] nseg).waypoints =
      parseWypts (toXY lat0 lon0) (toXY latdest londest) nseg := by
    simp [directRoute, cleanWaypoints_nil_obs]
  refine ⟨loopStep_no_obstacles _ _ _ _ _, runLoop_no_obstacles _ _ _ _ _ _, h3, ?_⟩
  rw [det_no_obstacles, h3]

/-- C8: the optimization priority is not a caller-supplied input of
`det_path_planning`: the source fixes the internal constant
`optimizationpriority = 0` (distance-first), so every call behaves as the
spec's priority-parameterized core applied to priority 0 — a caller cannot
request time-first optimization. -/
theorem priority_not_an_input :
    optimizationpriority = 0 ∧
    ∀ (fuel : ℕ) (activeIn : List Route) (lat0 lon0 altitude TAS latdest londest : ℚ)
      (inputObs : List (List (ℚ × ℚ))) (nseg : ℕ),
      det_path_planning fuel activeIn lat0 lon0 altitude TAS latdest londest inputObs nseg =
        det_path_planning_spec 0 fuel activeIn lat0 lon0 altitude TAS latdest londest
          inputObs nseg :=
  ⟨rfl, fun _ _ _ _ _ _ _ _ _ _ => rfl⟩

/-! ### Monotonicity of the branch construction (C3) -/

/-- C3 (amended): a branch built from a parent by `insert`,
`backwardcleanup` and `deviationcheck` has distance at least the parent's
(and hence nonnegative deviation under distance priority), provided the
parent's waypoints lie outside all obstacles — as the search maintains —
and its stored distance is its waypoint path length.  The increase need
not be strict even when the cleaned detour adds a waypoint. -/
theorem branch_distance_monotone (obsDic : List Obs) (origin destination : Pos)
    (TAS : ℚ) (priority : ℕ) (parent : Route) (altWptIndex : ℕ) (altClean : List Pos)
    (hout : ∀ w ∈ parent.waypoints, insideAny obsDic w = false)
    (hdist : parent.distance = pathDist parent.waypoints) :
    parent.distance ≤
      (mkBranch obsDic origin destination TAS priority parent altWptIndex altClean).distance ∧
    (priority = 0 →
      0 ≤ (mkBranch obsDic origin destination TAS priority parent altWptIndex
        altClean).deviation) := by
  set P := fun (i : ℕ) (x : Pos) =>
    (decide (i = 0) || decide (altWptIndex + altClean.length < i) ||
      !insideAny obsDic x) with hP
  set A := parent.waypoints.take altWptIndex with hA
  set C := parent.waypoints.drop altWptIndex with hC
  have hAkept : ∀ x ∈ A, ∀ i, P i x = true := by
    intro x hx i
    have hxw : x ∈ parent.waypoints := List.mem_of_mem_take hx
    simp [hP, hout x hxw]
  have hCkept : ∀ x ∈ C, ∀ i, P i x = true := by
    intro x hx i
    have hxw : x ∈ parent.waypoints := List.mem_of_mem_drop hx
    simp [hP, hout x hxw]
  have hdecomp : filterIdxAux P 0 (insertWypts parent.waypoints altWptIndex altClean) =
      A ++ (filterIdxAux P (0 + A.length) altClean ++ C) := by
    rw [insertWypts, ← hA, ← hC, List.append_assoc, filterIdxAux_append,
      filterIdxAux_all_kept P A hAkept, filterIdxAux_append,
      filterIdxAux_all_kept P C hCkept]
  have hkey : parent.distance ≤ pathDist (backwardcleanup obsDic
      (altWptIndex + altClean.length)
      (insertWypts parent.waypoints altWptIndex altClean)) := by
    rw [backwardcleanup, pathDist_dedupConsec]
    show parent.distance ≤ pathDist (filterIdxAux P 0 _)
    rw [hdecomp]
    calc parent.distance = pathDist (A ++ C) := by
          rw [hdist, hA, hC, List.take_append_drop]
      _ ≤ pathDist (A ++ (filterIdxAux P (0 + A.length) altClean ++ C)) :=
          pathDist_sublist_mono
            (List.Sublist.append_left ((List.suffix_append _ C).sublist) A)
  constructor
  · exact hkey
  · intro hp
    simp only [mkBranch, hp, if_pos rfl]
    simpa [sub_nonneg] using hkey

/-- Waypoints of the concrete parent route of the C3 counterexample. -/
def cxWypts : List Pos := [⟨0, 0⟩, ⟨2, 0⟩]

/-- The concrete parent route of the C3 counterexample: the straight
two-point route from (0,0) to (2,0). -/
noncomputable def cxParent : Route :=
  { origin := ⟨0, 0⟩, destination := ⟨2, 0⟩, TAS := 1, waypoints := cxWypts,
    distance := pathDist cxWypts, time := pathDist cxWypts, deviation := 0 }

lemma Pos.len_on_x_axis (q : ℚ) (hq : 0 ≤ q) : Pos.len ⟨q, 0⟩ = (q : ℝ) := by
  rw [Pos.len, Pos.toC, Complex.abs_apply, Complex.normSq_mk]
  push_cast
  rw [mul_zero, add_zero, Real.sqrt_mul_self (by exact_mod_cast hq)]

/-- C3 counterexample: splicing the collinear one-point detour [(1,0)]
into the route [(0,0),(2,0)] adds a waypoint that survives cleanup, yet
the branch's distance equals the parent's — the claimed strict increase
fails. -/
theorem branch_strict_increase_fails :
    (mkBranch [] ⟨0, 0⟩ ⟨2, 0⟩ 1 0 cxParent 1 [⟨1, 0⟩]).waypoints =
      [⟨0, 0⟩, ⟨1, 0⟩, ⟨2, 0⟩] ∧
    cxParent.waypoints.length + 1 =
      (mkBranch [] ⟨0, 0⟩ ⟨2, 0⟩ 1 0 cxParent 1 [⟨1, 0⟩]).waypoints.length ∧
    ¬ (cxParent.distance < (mkBranch [] ⟨0, 0⟩ ⟨2, 0⟩ 1 0 cxParent 1 [⟨1, 0⟩]).distance) := by
  have hw : (mkBranch [] ⟨0, 0⟩ ⟨2, 0⟩ 1 0 cxParent 1 [⟨1, 0⟩]).waypoints =
      [⟨0, 0⟩, ⟨1, 0⟩, ⟨2, 0⟩] := by
    simp only [mkBranch, backwardcleanup, insertWypts, cxParent, cxWypts]
    norm_num [filterIdxAux, insideAny, dedupConsec, dedupFrom, Pos.mk.injEq]
  have hd : (mkBranch [] ⟨0, 0⟩ ⟨2, 0⟩ 1 0 cxParent 1 [⟨1, 0⟩]).distance = 2 := by
    have : (mkBranch [] ⟨0, 0⟩ ⟨2, 0⟩ 1 0 cxParent 1 [⟨1, 0⟩]).distance =
        pathDist (mkBranch [] ⟨0, 0⟩ ⟨2, 0⟩ 1 0 cxParent 1 [⟨1, 0⟩]).waypoints := rfl
    rw [this, hw]
    have h1 : (Pos.mk 1 0).sub ⟨0, 0⟩ = ⟨1, 0⟩ := by simp [Pos.sub]
    have h2 : (Pos.mk 2 0).sub ⟨1, 0⟩ = ⟨1, 0⟩ := by
      simp [Pos.sub]
      norm_num
    rw [pathDist, pathDist, pathDist, h1, h2, Pos.len_on_x_axis 1 (by norm_num)]
    norm_num
  have hp : cxParent.distance = 2 := by
    show pathDist cxWypts = 2
    have h2 : (Pos.mk 2 0).sub ⟨0, 0⟩ = ⟨2, 0⟩ := by simp [Pos.sub]
    rw [cxWypts, pathDist, pathDist, h2, Pos.len_on_x_axis 2 (by norm_num)]
    norm_num
  refine ⟨hw, ?_, ?_⟩
  · rw [hw]
    rfl
  · rw [hd, hp]
    norm_num

/-- C3 witness for the amended monotonicity: at the concrete
counterexample inputs, the branch's distance is at least the parent's and
the deviation is nonnegative. -/
theorem branch_distance_monotone_witness :
    cxParent.distance ≤
      (mkBranch [] ⟨0, 0⟩ ⟨2, 0⟩ 1 0 cxParent 1 [⟨1, 0⟩]).distance ∧
    ((0 : ℕ) = 0 →
      0 ≤ (mkBranch [] ⟨0, 0⟩ ⟨2, 0⟩ 1 0 cxParent 1 [⟨1, 0⟩]).deviation) :=
  branch_distance_monotone [] ⟨0, 0⟩ ⟨2, 0⟩ 1 0 cxParent 1 [⟨1, 0⟩]
    (fun _ _ => rfl) rfl

/-! ### The branching-obstacle tie-break on a spanning obstacle (C6) -/

/-- Waypoints of the popped parent route in the C6 scenario: two route
segments, the first along the x-axis, the second vertical (the shape of a
route after one detour). -/
def c6Wypts : List Pos := [⟨0, 0⟩, ⟨10, 0⟩, ⟨10, 10⟩]

/-- The popped parent route of the C6 scenario. -/
noncomputable def c6Parent : Route :=
  { origin := ⟨0, 0⟩, destination := ⟨10, 10⟩, TAS := 1, waypoints := c6Wypts,
    distance := 0, time := 0, deviation := 0 }

/-- Obstacle 0: a clockwise triangle crossing the first route segment at
x = 7/2 and x = 9/2. -/
def obsA : Obs := ⟨[⟨4, 1⟩, ⟨5, -1⟩, ⟨3, -1⟩, ⟨4, 1⟩]⟩

/-- Obstacle 1: a clockwise quadrilateral crossing the first route segment
at x = 201/25 and also crossing the second route segment with an edge
whose supporting line meets the first segment's line at (1, 0). -/
def obsB : Obs := ⟨[⟨8, -1⟩, ⟨41/5, 4⟩, ⟨59/5, 6⟩, ⟨12, -1⟩, ⟨8, -1⟩]⟩

lemma c6_segInt_A00 : segInt ⟨0, 0⟩ ⟨10, 0⟩ ⟨4, 1⟩ ⟨5, -1⟩ = true := by
  norm_num [segInt, cross, inBox]

lemma c6_segInt_A01 : segInt ⟨0, 0⟩ ⟨10, 0⟩ ⟨5, -1⟩ ⟨3, -1⟩ = false := by
  norm_num [segInt, cross, inBox]

lemma c6_segInt_A02 : segInt ⟨0, 0⟩ ⟨10, 0⟩ ⟨3, -1⟩ ⟨4, 1⟩ = true := by
  norm_num [segInt, cross, inBox]

lemma c6_segInt_A10 : segInt ⟨10, 0⟩ ⟨10, 10⟩ ⟨4, 1⟩ ⟨5, -1⟩ = false := by
  norm_num [segInt, cross, inBox]

lemma c6_segInt_A11 : segInt ⟨10, 0⟩ ⟨10, 10⟩ ⟨5, -1⟩ ⟨3, -1⟩ = false := by
  norm_num [segInt, cross, inBox]

lemma c6_segInt_A12 : segInt ⟨10, 0⟩ ⟨10, 10⟩ ⟨3, -1⟩ ⟨4, 1⟩ = false := by
  norm_num [segInt, cross, inBox]

lemma c6_segInt_B00 : segInt ⟨0, 0⟩ ⟨10, 0⟩ ⟨8, -1⟩ ⟨41/5, 4⟩ = true := by
  norm_num [segInt, cross, inBox]

lemma c6_segInt_B01 : segInt ⟨0, 0⟩ ⟨10, 0⟩ ⟨41/5, 4⟩ ⟨59/5, 6⟩ = false := by
  norm_num [segInt, cross, inBox]

lemma c6_segInt_B02 : segInt ⟨0, 0⟩ ⟨10, 0⟩ ⟨59/5, 6⟩ ⟨12, -1⟩ = false := by
  norm_num [segInt, cross, inBox]

lemma c6_segInt_B03 : segInt ⟨0, 0⟩ ⟨10, 0⟩ ⟨12, -1⟩ ⟨8, -1⟩ = false := by
  norm_num [segInt, cross, inBox]

lemma c6_segInt_B10 : segInt ⟨10, 0⟩ ⟨10, 10⟩ ⟨8, -1⟩ ⟨41/5, 4⟩ = false := by
  norm_num [segInt, cross, inBox]

lemma c6_segInt_B11 : segInt ⟨10, 0⟩ ⟨10, 10⟩ ⟨41/5, 4⟩ ⟨59/5, 6⟩ = true := by
  norm_num [segInt, cross, inBox]

lemma c6_segInt_B12 : segInt ⟨10, 0⟩ ⟨10, 10⟩ ⟨59/5, 6⟩ ⟨12, -1⟩ = false := by
  norm_num [segInt, cross, inBox]

lemma c6_segInt_B13 : segInt ⟨10, 0⟩ ⟨10, 10⟩ ⟨12, -1⟩ ⟨8, -1⟩ = false := by
  norm_num [segInt, cross, inBox]

lemma c6_intersect_A : obsA.intersectWypts c6Wypts = [(0, 0), (0, 2)] := by
  have hr2 : List.range 2 = [0, 1] := rfl
  have hr3 : List.range 3 = [0, 1, 2] := rfl
  simp only [Obs.intersectWypts, obsA, c6Wypts, List.length_cons, List.length_nil]
  norm_num [hr2, hr3, List.filterMap_cons, List.filterMap_nil,
    List.getD_cons_zero, List.getD_cons_succ,
    c6_segInt_A00, c6_segInt_A01, c6_segInt_A02,
    c6_segInt_A10, c6_segInt_A11, c6_segInt_A12]

lemma c6_intersect_B : obsB.intersectWypts c6Wypts = [(0, 0), (1, 1)] := by
  have hr2 : List.range 2 = [0, 1] := rfl
  have hr4 : List.range 4 = [0, 1, 2, 3] := rfl
  simp only [Obs.intersectWypts, obsB, c6Wypts, List.length_cons, List.length_nil]
  norm_num [hr2, hr4, List.filterMap_cons, List.filterMap_nil,
    List.getD_cons_zero, List.getD_cons_succ,
    c6_segInt_B00, c6_segInt_B01, c6_segInt_B02, c6_segInt_B03,
    c6_segInt_B10, c6_segInt_B11, c6_segInt_B12, c6_segInt_B13]

lemma c6_allints : allIntersections [obsA, obsB] c6Parent =
    [[(0, 0), (0, 2)], [(0, 0), (1, 1)]] := by
  have hp : c6Parent.waypoints = c6Wypts := rfl
  simp [allIntersections, hp, c6_intersect_A, c6_intersect_B]

lemma c6_ipt_A0 : (intersectionpt ⟨4, 1⟩ ⟨5, -1⟩ ⟨0, 0⟩ ⟨10, 0⟩).sub ⟨0, 0⟩ = ⟨9/2, 0⟩ := by
  norm_num [intersectionpt, Pos.sub, Pos.mk.injEq]

lemma c6_ipt_A2 : (intersectionpt ⟨3, -1⟩ ⟨4, 1⟩ ⟨0, 0⟩ ⟨10, 0⟩).sub ⟨0, 0⟩ = ⟨7/2, 0⟩ := by
  norm_num [intersectionpt, Pos.sub, Pos.mk.injEq]

lemma c6_ipt_B0 : (intersectionpt ⟨8, -1⟩ ⟨41/5, 4⟩ ⟨0, 0⟩ ⟨10, 0⟩).sub ⟨0, 0⟩ =
    ⟨201/25, 0⟩ := by
  norm_num [intersectionpt, Pos.sub, Pos.mk.injEq]

lemma c6_ipt_B1 : (intersectionpt ⟨41/5, 4⟩ ⟨59/5, 6⟩ ⟨0, 0⟩ ⟨10, 0⟩).sub ⟨0, 0⟩ =
    ⟨1, 0⟩ := by
  norm_num [intersectionpt, Pos.sub, Pos.mk.injEq]

lemma c6_len_A0 :
    ((intersectionpt ⟨4, 1⟩ ⟨5, -1⟩ ⟨0, 0⟩ ⟨10, 0⟩).sub ⟨0, 0⟩).len = (9/2 : ℝ) := by
  rw [c6_ipt_A0, Pos.len_on_x_axis (9/2) (by norm_num)]
  norm_num

lemma c6_len_A2 :
    ((intersectionpt ⟨3, -1⟩ ⟨4, 1⟩ ⟨0, 0⟩ ⟨10, 0⟩).sub ⟨0, 0⟩).len = (7/2 : ℝ) := by
  rw [c6_ipt_A2, Pos.len_on_x_axis (7/2) (by norm_num)]
  norm_num

lemma c6_len_B0 :
    ((intersectionpt ⟨8, -1⟩ ⟨41/5, 4⟩ ⟨0, 0⟩ ⟨10, 0⟩).sub ⟨0, 0⟩).len = (201/25 : ℝ) := by
  rw [c6_ipt_B0, Pos.len_on_x_axis (201/25) (by norm_num)]
  norm_num

lemma c6_len_B1 :
    ((intersectionpt ⟨41/5, 4⟩ ⟨59/5, 6⟩ ⟨0, 0⟩ ⟨10, 0⟩).sub ⟨0, 0⟩).len = (1 : ℝ) := by
  rw [c6_ipt_B1, Pos.len_on_x_axis 1 (by norm_num)]
  norm_num

lemma c6_select : selectBranchObstacle [obsA, obsB] c6Parent
    [[(0, 0), (0, 2)], [(0, 0), (1, 1)]] = 1 := by
  have hfs : firstsegs [[(0, 0), (0, 2)], [(0, 0), (1, 1)]] = [some 0, some 0] := rfl
  have hmv : minValidFirstseg [some 0, some 0] = 0 := rfl
  simp only [selectBranchObstacle, hfs, hmv]
  rw [if_pos (by decide : 1 < List.count (some 0) [some 0, some 0])]
  have hind : List.map Prod.fst
      (List.filter (fun p => decide (p.2 = some 0)) ([some 0, some 0] : List (Option ℕ)).enum) =
        [0, 1] := rfl
  rw [hind]
  simp only [List.foldl_cons, List.foldl_nil, List.map_cons, List.map_nil,
    List.getD_cons_zero, List.getD_cons_succ, c6Parent, c6Wypts, obsA, obsB,
    List.nil_append, List.append_nil, List.cons_append]
  rw [c6_len_A0, c6_len_A2, c6_len_B0, c6_len_B1]
  have hm1 : pyMin [(9/2 : ℝ), (7/2 : ℝ)] = (7/2 : ℝ) := by
    simp only [pyMin, List.foldl_cons, List.foldl_nil]
    norm_num [min_def]
  have hm2 : pyMin [(9/2 : ℝ), (7/2 : ℝ), (201/25 : ℝ), (1 : ℝ)] = (1 : ℝ) := by
    simp only [pyMin, List.foldl_cons, List.foldl_nil]
    norm_num [min_def]
  rw [hm1, hm2]
  have hm3 : pyMin [(7/2 : ℝ), (1 : ℝ)] = (1 : ℝ) := by
    simp only [pyMin, List.foldl_cons, List.foldl_nil]
    norm_num [min_def]
  rw [hm3]
  have hpi : pyIndex (1 : ℝ) [(7/2 : ℝ), (1 : ℝ)] = 1 := by
    norm_num [pyIndex]
  rw [hpi]
  rfl

/-- C6 (the failing input, evaluated): with the parent route
[(0,0),(10,0),(10,10)] and the two obstacles tied on route segment 0, the
source selects obstacle 1 for branching although obstacle 0's
intersection point with that segment (distance 7/2 from its start) is
strictly closer than obstacle 1's (distance 201/25): the tie-break scan
also uses obstacle 1's edge over the *second* route segment, whose
supporting line meets the first segment's line at (1, 0). -/
theorem tiebreak_uses_offsegment_points :
    allIntersections [obsA, obsB] c6Parent = [[(0, 0), (0, 2)], [(0, 0), (1, 1)]] ∧
    selectBranchObstacle [obsA, obsB] c6Parent
        (allIntersections [obsA, obsB] c6Parent) = 1 ∧
    ((intersectionpt ⟨3, -1⟩ ⟨4, 1⟩ ⟨0, 0⟩ ⟨10, 0⟩).sub ⟨0, 0⟩).len <
      ((intersectionpt ⟨8, -1⟩ ⟨41/5, 4⟩ ⟨0, 0⟩ ⟨10, 0⟩).sub ⟨0, 0⟩).len := by
  refine ⟨c6_allints, ?_, ?_⟩
  · rw [c6_allints]
    exact c6_select
  · rw [c6_len_A2, c6_len_B0]
    norm_num

end DetPath
